import Mathlib

/-!
Verification of the task-center core (parser, prioritizer, recommendation
engine) against its natural-language specification.

The Python source is shallowly embedded:
* Python `float` score arithmetic is modelled exactly over `ℚ`;
* Python `datetime` values are modelled as minutes since an epoch (`Int`),
  with a day equal to 1440 minutes and calendar-day boundaries at multiples
  of 1440; `timedelta.days` is floor division by 1440 (Python semantics);
* Python `str` text is modelled as `List Char` where character-level
  operations (lowercasing, substring search, stripping) matter;
* `Optional[float]` fields are `Option ℚ`; the Python truthiness idiom
  `x or default` is modelled by an explicit function.

Fields of the source data model that no embedded operation reads
(free-form JSON dictionaries such as `ai_recommendations`, `clarifications`
and `TaskContext.criticality_factors`) are carried as opaque-free simple
data or omitted where they cannot influence any embedded computation.
-/

namespace TaskCenter

/-! ## Data model (src/core/models.py) -/

/-- Task priority enumeration (`Priority`, src/core/models.py:27). -/
inductive Priority where
  | critical
  | high
  | medium
  | low
  | backlog
deriving DecidableEq, Repr

/-- Task status enumeration (`Status`, src/core/models.py:36). -/
inductive Status where
  | new
  | inProgress
  | blocked
  | review
  | done
  | cancelled
deriving DecidableEq, Repr

/-- Task type enumeration (`TaskType`, src/core/models.py:10). -/
inductive TaskType where
  | analysis
  | documentation
  | development
  | coordination
  | bug
  | unknown
deriving DecidableEq, Repr

/-- Complexity enumeration (`Complexity`, src/core/models.py:20). -/
inductive Complexity where
  | low
  | medium
  | high
deriving DecidableEq, Repr

/-- Jira ticket reference (`JiraReference`, src/core/models.py:46). -/
structure JiraReference where
  ticket_id : String
  url : Option String := none
  project : String := "REMD"
deriving DecidableEq, Repr

/-- Person mention (`Person`, src/core/models.py:69). -/
structure Person where
  name : String
  role : Option String := none
  mention_context : Option String := none
deriving DecidableEq, Repr

/-- Task metadata (`TaskMetadata`, src/core/models.py:118); timestamps are
minutes since the epoch. -/
structure TaskMetadata where
  created_at : Int := 0
  updated_at : Int := 0
  last_status_change : Option Int := none
  estimated_hours : Option ℚ := none
  actual_hours : Option ℚ := none
  tags : List String := []
deriving DecidableEq, Repr

/-- The task record (`Task`, src/core/models.py:150).  The dataclass
defaults are reproduced as Lean default field values; the `id` default is a
fresh uuid in the source, so it is a required field here. -/
structure Task where
  id : String
  title : String := ""
  description : String := ""
  original_text : String := ""
  task_type : TaskType := TaskType.unknown
  complexity : Complexity := Complexity.medium
  priority : Priority := Priority.medium
  status : Status := Status.new
  jira_references : List JiraReference := []
  mentions : List Person := []
  dependencies : List String := []
  deadline : Option Int := none
  start_date : Option Int := none
  metadata : TaskMetadata := {}
  ai_classification_confidence : ℚ := 0
  user_notes : String := ""
deriving DecidableEq, Repr

/-! ## Python string primitives used by the core -/

/-- Python `str.lower` restricted to the alphabets that occur in the
repository: ASCII `A-Z` and Cyrillic `А-Я`/`Ё` are mapped to their
lowercase forms, every other character is unchanged. -/
def pyLowerChar (c : Char) : Char :=
  if 'A' ≤ c ∧ c ≤ 'Z' then Char.ofNat (c.toNat + 32)
  else if 'А' ≤ c ∧ c ≤ 'Я' then Char.ofNat (c.toNat + 32)
  else if c = 'Ё' then 'ё' else c

/-- Lowercase a whole string (as a character list). -/
def pyLower (s : List Char) : List Char := s.map pyLowerChar

/-- Leading-match test: does `needle` occur at the start of `hay`? -/
def isStartOf : List Char → List Char → Bool
  | [], _ => true
  | _ :: _, [] => false
  | a :: as, b :: bs => a == b && isStartOf as bs

/-- Python substring containment `needle in hay`. -/
def pyIn (needle hay : List Char) : Bool :=
  match hay with
  | [] => needle.isEmpty
  | _ :: t => isStartOf needle hay || pyIn needle t

/-- Python whitespace characters recognised by `str.strip` (ASCII part). -/
def isPySpace (c : Char) : Bool :=
  c == ' ' || c == '\t' || c == '\n' || c == '\x0d' || c == '\x0b' || c == '\x0c'

/-- Python `str.strip` (drop whitespace from both ends). -/
def pyStrip (s : List Char) : List Char :=
  ((s.dropWhile isPySpace).reverse.dropWhile isPySpace).reverse

/-! ## Priority scorer (src/analysis/prioritizer.py) -/

/-- Base-priority sub-score (`_score_base_priority`,
src/analysis/prioritizer.py:54).  The source fallback `priority_map.get(_, 0.5)`
default is unreachable because the enumeration is closed. -/
def scoreBasePriority (t : Task) : ℚ :=
  match t.priority with
  | Priority.critical => 1
  | Priority.high => 0.8
  | Priority.medium => 0.5
  | Priority.low => 0.3
  | Priority.backlog => 0.1

/-- Minutes in a day; datetimes are minutes since the epoch. -/
def minutesPerDay : Int := 1440

/-- Python `timedelta.days`: floor division of the full time difference by
one day (Python floor-division semantics, hence `Int.fdiv`). -/
def timedeltaDays (diff : Int) : Int := Int.fdiv diff minutesPerDay

/-- Deadline sub-score (`_score_deadline`, src/analysis/prioritizer.py:65).
`now` is the value `datetime.now()` returns during the call. -/
def scoreDeadline (t : Task) (now : Int) : ℚ :=
  match t.deadline with
  | none => 0.3
  | some dl =>
    let days_until : Int := timedeltaDays (dl - now)
    if days_until < 0 then 1
    else if days_until = 0 then 1
    else if days_until = 1 then 0.9
    else if days_until ≤ 3 then 0.8
    else if days_until ≤ 7 then 0.6
    else if days_until ≤ 14 then 0.4
    else 0.2

/-- The urgency keyword list of the prioritizer
(`TaskPrioritizer.URGENCY_KEYWORDS`, src/analysis/prioritizer.py:25).
It has seven entries, including the final `"немедленно"`. -/
def URGENCY_KEYWORDS : List (List Char) :=
  ["срочно".data, "критично".data, "блокер".data, "asap".data,
   "горит".data, "сегодня".data, "немедленно".data]

/-- The text scanned for urgency keywords: the f-string
`f"{task.title} {task.description} {task.original_text}"` lowercased
(src/analysis/prioritizer.py:89). -/
def textToCheck (t : Task) : List Char :=
  pyLower (t.title ++ " " ++ t.description ++ " " ++ t.original_text).data

/-- Urgency keyword sub-score (`_score_urgency_keywords`,
src/analysis/prioritizer.py:87). -/
def scoreUrgencyKeywords (t : Task) : ℚ :=
  let found := URGENCY_KEYWORDS.filter (fun k => pyIn k (textToCheck t))
  if found.isEmpty then 0
  else min 1 ((found.length : ℚ) * 0.5)

/-- Blocking sub-score (`_score_blocking`, src/analysis/prioritizer.py:102).
Note the early return 0.0 when the own dependency list of the task is empty,
before dependants are counted. -/
def scoreBlocking (t : Task) (all_tasks : List Task) : ℚ :=
  if t.dependencies.isEmpty then 0
  else
    let dependent_tasks := all_tasks.filter
      (fun u => t.id ∈ u.dependencies ∧ u.status ≠ Status.done)
    if dependent_tasks.isEmpty then 0
    else min 1 ((dependent_tasks.length : ℚ) * 0.3)

/-- AI-confidence sub-score (`_score_ai_confidence`,
src/analysis/prioritizer.py:119). -/
def scoreAiConfidence (t : Task) : ℚ := t.ai_classification_confidence

/-- Round-half-to-even to an integer (the rounding Python `round`
performs on an exactly representable value). -/
def roundHalfEven (x : ℚ) : Int :=
  let f : Int := Int.floor x
  let d : ℚ := x - f
  if d < 1/2 then f
  else if 1/2 < d then f + 1
  else if f % 2 = 0 then f else f + 1

/-- Python `round(x, 1)`. -/
def round1 (x : ℚ) : ℚ := (roundHalfEven (x * 10) : ℚ) / 10

/-- Composite score (`calculate_score`, src/analysis/prioritizer.py:27):
weighted sum of the five sub-scores with the weights of
`TaskPrioritizer.WEIGHTS`, scaled to 0-100 and rounded to one decimal.
`now` is the ambient wall-clock time read by `_score_deadline`. -/
def calculate_score (t : Task) (all_tasks : List Task) (now : Int) : ℚ :=
  let total :=
    scoreBasePriority t * 0.30 +
    scoreDeadline t now * 0.25 +
    scoreUrgencyKeywords t * 0.20 +
    scoreBlocking t all_tasks * 0.15 +
    scoreAiConfidence t * 0.10
  round1 (total * 100)

/-- One entry of the prioritized list (`prioritize_tasks` result dicts,
src/analysis/prioritizer.py:154). -/
structure ScoredItem where
  task : Task
  score : ℚ
  importance_level : String
  importance_color : String
deriving DecidableEq, Repr

/-- Importance tier of a score (src/analysis/prioritizer.py:141). -/
def importanceLevel (score : ℚ) : String × String :=
  if 80 ≤ score then ("[!] КРИТИЧНО", "red")
  else if 60 ≤ score then ("[^] Высокий", "yellow")
  else if 40 ≤ score then ("[-] Средний", "cyan")
  else ("[~] Низкий", "dim")

/-- Build the result entry for one task. -/
def mkScoredItem (t : Task) (all_tasks : List Task) (now : Int) : ScoredItem :=
  let s := calculate_score t all_tasks now
  ⟨t, s, (importanceLevel s).1, (importanceLevel s).2⟩

/-- Stable descending insertion by score: `x` is placed after every earlier
element whose score is at least that of `x`. -/
def insDesc (x : ScoredItem) : List ScoredItem → List ScoredItem
  | [] => [x]
  | y :: ys => if y.score < x.score then x :: y :: ys else y :: insDesc x ys

/-- Stable sort by descending score, modelling the stable Python
`list.sort(key=score, reverse=True)` (src/analysis/prioritizer.py:162). -/
def sortByScoreDesc : List ScoredItem → List ScoredItem
  | [] => []
  | x :: xs => insDesc x (sortByScoreDesc xs)

/-- Batch ranking (`prioritize_tasks`, src/analysis/prioritizer.py:123):
keep tasks that are neither Done nor Cancelled, score each against the full
collection, and sort by descending score (stable). -/
def prioritize_tasks (tasks : List Task) (now : Int) : List ScoredItem :=
  let active := tasks.filter
    (fun t => t.status ≠ Status.done ∧ t.status ≠ Status.cancelled)
  sortByScoreDesc (active.map (fun t => mkScoredItem t tasks now))

/-! ## Recommendation engine (src/analysis/recommendation_engine.py) -/

/-- Python `x or default` on an `Optional[float]`: `None` and the falsy
value `0.0` both give the default. -/
def pyOrHours (x : Option ℚ) (default : ℚ) : ℚ :=
  match x with
  | none => default
  | some v => if v = 0 then default else v

/-- Hours charged for a task during selection and totalling
(`task.metadata.estimated_hours or 2.0`,
src/analysis/recommendation_engine.py:113 and :48). -/
def chargedHours (t : Task) : ℚ := pyOrHours t.metadata.estimated_hours 2

/-- The list of unresolved blocking dependencies
(src/analysis/recommendation_engine.py:78): dependency ids that resolve to
some task in the full collection whose status is not Done. -/
def blockingDeps (t : Task) (all_tasks : List Task) : List String :=
  t.dependencies.filter
    (fun dep => all_tasks.any (fun u => u.id == dep && decide (u.status ≠ Status.done)))

/-- Availability predicate of the filter loop body
(src/analysis/recommendation_engine.py:68): skip Done/Cancelled tasks, and
skip tasks with a non-empty dependency list some of whose dependencies are
blocking. -/
def availableFilterPred (t : Task) (all_tasks : List Task) : Bool :=
  if t.status = Status.done ∨ t.status = Status.cancelled then false
  else if t.dependencies.isEmpty then true
  else (blockingDeps t all_tasks).isEmpty

/-- Availability filter (`_filter_available_tasks`,
src/analysis/recommendation_engine.py:60). -/
def filter_available_tasks (prioritized : List ScoredItem) (all_tasks : List Task) :
    List ScoredItem :=
  prioritized.filter (fun item => availableFilterPred item.task all_tasks)

/-- Loop of the greedy selection (`_select_optimal_set`,
src/analysis/recommendation_engine.py:109): accept the head when its
charged hours fit in the remaining budget, then stop as soon as the
accepted count has reached `maxTasks`; a non-fitting head is skipped and
iteration continues.  `maxTasks` models `Config.MAX_RECOMMENDED_TASKS`. -/
def selectGo (maxTasks : ℕ) : List ScoredItem → ℚ → List ScoredItem → List ScoredItem
  | [], _, selected => selected
  | item :: rest, remaining, selected =>
    let estimated := chargedHours item.task
    if estimated ≤ remaining then
      let selected' := selected ++ [item]
      if maxTasks ≤ selected'.length then selected'
      else selectGo maxTasks rest (remaining - estimated) selected'
    else selectGo maxTasks rest remaining selected

/-- Greedy selection (`_select_optimal_set`,
src/analysis/recommendation_engine.py:94). -/
def select_optimal_set (available : List ScoredItem) (available_hours : ℚ)
    (maxTasks : ℕ) : List ScoredItem :=
  selectGo maxTasks available available_hours []

/-- Sum of the charged hours of a selection
(src/analysis/recommendation_engine.py:47). -/
def totalChargedHours (items : List ScoredItem) : ℚ :=
  (items.map (fun r => chargedHours r.task)).sum

/-- The recommendation record (`recommend_for_today` result dict,
src/analysis/recommendation_engine.py:52). -/
structure Recommendation where
  recommended : List ScoredItem
  total_tasks : ℕ
  total_hours : ℚ
  available_hours : ℚ
  remaining_hours : ℚ
deriving DecidableEq, Repr

/-- Daily recommendation pipeline (`recommend_for_today`,
src/analysis/recommendation_engine.py:19).  `available_hours` and
`maxTasks` model the supplied budget and `Config.MAX_RECOMMENDED_TASKS`;
`now` is the wall-clock time the scorer reads. -/
def recommend_for_today (tasks : List Task) (available_hours : ℚ)
    (maxTasks : ℕ) (now : Int) : Recommendation :=
  let prioritized := prioritize_tasks tasks now
  let available := filter_available_tasks prioritized tasks
  let recommended := select_optimal_set available available_hours maxTasks
  let total_hours := totalChargedHours recommended
  { recommended := recommended
    total_tasks := recommended.length
    total_hours := total_hours
    available_hours := available_hours
    remaining_hours := max 0 (available_hours - total_hours) }

/-! ## Task parser (src/parsers/task_parser.py) -/

/-- Title extraction step of `_parse_single_task`
(src/parsers/task_parser.py:58): `re.match(r"^([^\.]+)", clean_text)`
matches the maximal leading run of non-period characters; when it matches
(the line does not start with a period) the title is that run, stripped;
only when it fails (the non-empty line starts with a period) does the
fallback `clean_text[:100]` apply. -/
def extractTitle (cleanText : List Char) : List Char :=
  let m := cleanText.takeWhile (fun c => c != '.')
  if m.isEmpty then cleanText.take 100 else pyStrip m

/-- Mention-context labelling of `_extract_mentions`
(src/parsers/task_parser.py:114): the whole regex match (trigger word plus
the captured name) is lowercased and scanned for the trigger substrings in
a fixed order; the first hit decides the label. -/
def mentionContextOf (matchedText : List Char) : Option String :=
  let low := pyLower matchedText
  if pyIn "согласовать".data low then some "согласование"
  else if pyIn "связаться".data low then some "координация"
  else if pyIn "передать".data low then some "делегирование"
  else if pyIn "от".data low then some "постановщик"
  else if pyIn "задача".data low then some "автор"
  else none

/-- The full text of a `MENTION_PATTERN` match
(src/parsers/task_parser.py:16): the trigger word, the whitespace matched
by the mandatory separator (here one space, a witness of the regex
class), and the captured name. -/
def mentionMatchText (trigger name : List Char) : List Char :=
  trigger ++ (" ".data) ++ name

/-- The mention produced for one regex match
(src/parsers/task_parser.py:128): the captured name, stripped, with the
context label of the full match. -/
def mkMention (trigger name : List Char) : Person :=
  { name := String.mk (pyStrip name)
    mention_context := mentionContextOf (mentionMatchText trigger name) }

/-! ## Spec-side definitions

The following definitions are written from the words of the specification, not
from the source; each is compared with the corresponding source-derived
definition above in a refinement theorem or counterexample. -/

/-- Spec-side: the six-element urgency keyword set of the specification
("срочно","критично","блокер","asap","сегодня","горит"). -/
def specUrgencySix : List (List Char) :=
  ["срочно".data, "критично".data, "блокер".data, "asap".data,
   "сегодня".data, "горит".data]

/-- Spec-side: urgency sub-score per the claim: `min(1.0, 0.5 × k)` where
`k` counts keywords of the six-element set occurring case-insensitively in
title+description+original_text; no other word contributes. -/
def specUrgencyScoreSix (t : Task) : ℚ :=
  let k := (specUrgencySix.filter (fun kw => pyIn kw (textToCheck t))).length
  min 1 ((k : ℚ) * 0.5)

/-- Spec-side: the calendar date (day index) of a timestamp, with day
boundaries at multiples of 1440 minutes. -/
def specDateOf (ts : Int) : Int := Int.fdiv ts minutesPerDay

/-- Spec-side: deadline sub-score per the claim, with
`days_until` = deadline date − current date in whole days. -/
def specDeadlineScoreByDate (t : Task) (now : Int) : ℚ :=
  match t.deadline with
  | none => 0.3
  | some dl =>
    let days_until : Int := specDateOf dl - specDateOf now
    if days_until < 0 ∨ days_until = 0 then 1
    else if days_until = 1 then 0.9
    else if days_until ≤ 3 then 0.8
    else if days_until ≤ 7 then 0.6
    else if days_until ≤ 14 then 0.4
    else 0.2

/-- Amended deadline sub-score specification: identical buckets, but
`days_until` is the floor of the full timestamp difference in days
(Python `timedelta.days`), as the source computes it. -/
def amendedDeadlineScore (t : Task) (now : Int) : ℚ :=
  match t.deadline with
  | none => 0.3
  | some dl =>
    let days_until : Int := timedeltaDays (dl - now)
    if days_until ≤ 0 then 1
    else if days_until = 1 then 0.9
    else if days_until ≤ 3 then 0.8
    else if days_until ≤ 7 then 0.6
    else if days_until ≤ 14 then 0.4
    else 0.2

/-- Spec-side: blocking sub-score per the claim: `min(1.0, 0.3 × n)` with
`n` the number of non-Done tasks in the collection listing the id of the task
among their dependencies, independent of the own dependency list of the task. -/
def specBlockingScore (t : Task) (all_tasks : List Task) : ℚ :=
  let n := (all_tasks.filter
    (fun u => u ≠ t ∧ t.id ∈ u.dependencies ∧ u.status ≠ Status.done)).length
  min 1 ((n : ℚ) * 0.3)

/-! ## Concrete inputs used in counterexamples and witnesses -/

/-- A task with an empty dependency list on which another task depends. -/
def c1NoDeps : Task := { id := "t1" }

/-- A non-Done task whose dependency list contains `"t1"`. -/
def c1Dependent : Task := { id := "t2", dependencies := ["t1"] }

/-- A plain available task estimated at one hour. -/
def c2Solo : Task := { id := "s", metadata := { estimated_hours := some 1 } }

/-- A 120-character line containing no period. -/
def c4LongLine : List Char := List.replicate 120 'a'

/-- A short prefix-stripped line without periods. -/
def c4ShortLine : List Char := "Обновить документацию".data

/-- A task due at minute 1980 (day 1, 09:00). -/
def c5Task : Task := { id := "d", deadline := some 1980 }

/-- A task whose title holds the seventh urgency keyword of the source. -/
def c6Task : Task := { id := "u", title := "немедленно" }

/-- A prioritized entry whose task has estimated hours exactly 0.0. -/
def c7ZeroItem : ScoredItem :=
  { task := { id := "z", metadata := { estimated_hours := some 0 } }
    score := 0, importance_level := "", importance_color := "" }

/-- A prioritized entry whose task has estimated hours 1.0. -/
def c7FitItem : ScoredItem :=
  { task := { id := "f", metadata := { estimated_hours := some 1 } }
    score := 0, importance_level := "", importance_color := "" }

/-- A task with a deadline at the epoch and default fields otherwise. -/
def c9Task : Task := { id := "p", deadline := some 0 }

/-- The same task with only the status changed. -/
def c9TaskVariant : Task := { c9Task with status := Status.review }

/-- A non-Done task listing its own id among its dependencies. -/
def c10Task : Task := { id := "a", dependencies := ["a"] }

/-- A dependency task that is not yet Done. -/
def c3DepNew : Task := { id := "a" }

/-- The same dependency task after completion. -/
def c3DepDone : Task := { id := "a", status := Status.done }

/-- A task depending on the task with id `"a"`. -/
def c3Waiting : Task := { id := "b", dependencies := ["a"] }

/-! ## Helper lemmas -/

theorem isEmpty_true_iff {α : Type} (l : List α) : l.isEmpty = true ↔ l = [] := by
  cases l <;> simp [List.isEmpty]

theorem filter_eq_nil_iff_all_false {α : Type} (p : α → Bool) (l : List α) :
    l.filter p = [] ↔ ∀ a ∈ l, p a = false := by
  induction l with
  | nil => simp
  | cons x xs ih =>
    by_cases h : p x
    · simp [List.filter, h]
    · simp only [Bool.not_eq_true] at h
      simp [List.filter, h, ih]

/-! ## C1 -/

/-- C1: the blocking sub-score does not equal min(1.0, 0.3 × n) computed
from the other non-Done tasks depending on the task: with one such
dependent but an empty own dependency list the source returns 0.0 where
the claim requires 0.3. -/
theorem c1_blocking_guard_short_circuits :
    scoreBlocking c1NoDeps [c1NoDeps, c1Dependent] = 0 ∧
    specBlockingScore c1NoDeps [c1NoDeps, c1Dependent] = 0.3 ∧
    (0 : ℚ) ≠ 0.3 := by
  refine ⟨?_, ?_, by norm_num⟩
  · simp [scoreBlocking, c1NoDeps]
  · have h : ([c1NoDeps, c1Dependent].filter
        (fun u => u ≠ c1NoDeps ∧ c1NoDeps.id ∈ u.dependencies ∧
          u.status ≠ Status.done)) = [c1Dependent] := by decide
    simp only [specBlockingScore, h]
    norm_num

/-! ## C5 -/

/-- C5 counterexample: for a deadline at day 1, 09:00 and a current time of
day 0, 18:00 the calendar-date difference is one whole day, so the claim
assigns 0.9, but the source floors the 15-hour timestamp difference to 0
days and assigns 1.0. -/
theorem c5_date_rule_counterexample :
    scoreDeadline c5Task 1080 = 1 ∧
    specDeadlineScoreByDate c5Task 1080 = 0.9 ∧
    (1 : ℚ) ≠ 0.9 := by
  refine ⟨by decide, ?_, by norm_num⟩
  have h : specDateOf 1980 - specDateOf 1080 = 1 := by decide
  simp only [specDeadlineScoreByDate, c5Task, h]
  norm_num

/-- C5 amended: the deadline sub-score is 0.3 without a deadline; otherwise
with days_until the floor of the full timestamp difference in whole
24-hour periods (Python timedelta.days), the buckets are: ≤ 0 gives 1.0,
= 1 gives 0.9, ≤ 3 gives 0.8, ≤ 7 gives 0.6, ≤ 14 gives 0.4, else 0.2. -/
theorem c5_deadline_score_amended (t : Task) (now : Int) :
    scoreDeadline t now = amendedDeadlineScore t now := by
  unfold scoreDeadline amendedDeadlineScore
  cases t.deadline with
  | none => rfl
  | some dl =>
    simp only
    split_ifs <;> first | rfl | omega

/-! ## C6 -/

/-- C6 counterexample: the keyword list of the source contains a seventh entry
"немедленно"; a task whose text holds only that word scores 0.5, while the
six-element set of the claim yields zero matches and score 0.0. -/
theorem c6_six_keyword_counterexample :
    scoreUrgencyKeywords c6Task = 0.5 ∧
    specUrgencyScoreSix c6Task = 0 ∧
    (0.5 : ℚ) ≠ 0 := by
  refine ⟨?_, ?_, by norm_num⟩
  · have h : URGENCY_KEYWORDS.filter (fun k => pyIn k (textToCheck c6Task)) =
        ["немедленно".data] := by decide
    simp only [scoreUrgencyKeywords, h]
    norm_num
  · have h : specUrgencySix.filter (fun kw => pyIn kw (textToCheck c6Task)) =
        ([] : List (List Char)) := by decide
    simp only [specUrgencyScoreSix, h]
    norm_num

/-- C6 amended: the urgency sub-score equals min(1.0, 0.5 × k) where k is
the number of keywords of the seven-element urgency set of the source (the six
claimed ones plus "немедленно") occurring case-insensitively in
title+description+original_text; no word outside that set contributes. -/
theorem c6_urgency_score_amended (t : Task) :
    scoreUrgencyKeywords t =
      min 1 (((URGENCY_KEYWORDS.filter (fun k => pyIn k (textToCheck t))).length : ℚ)
        * 0.5) := by
  unfold scoreUrgencyKeywords
  by_cases h : (URGENCY_KEYWORDS.filter (fun k => pyIn k (textToCheck t))).isEmpty
  · rw [isEmpty_true_iff] at h
    simp [h]
  · simp [h]

/-! ## C4 -/

theorem takeWhile_of_all {α : Type} (p : α → Bool) (l : List α)
    (h : ∀ a ∈ l, p a = true) : l.takeWhile p = l := by
  induction l with
  | nil => rfl
  | cons x xs ih =>
    rw [List.takeWhile_cons, h x (by simp)]
    rw [ih (fun a ha => h a (by simp [ha]))]
    simp

theorem extractTitle_eq (cs : List Char) :
    extractTitle cs =
      if (cs.takeWhile (fun c => c != '.')).isEmpty then cs.take 100
      else pyStrip (cs.takeWhile (fun c => c != '.')) := rfl

/-- C4 counterexample: a 120-character line with no period character; the
title computed by the source is the whole line (the leading non-period run), not the
first 100 characters the claim requires. -/
theorem c4_no_period_counterexample :
    (∀ c ∈ c4LongLine, c ≠ '.') ∧
    extractTitle c4LongLine ≠ c4LongLine.take 100 := by
  constructor
  · decide
  · decide

/-- C4 amended: on a non-empty prefix-stripped line the title is the
whitespace-stripped maximal leading run of non-period characters whenever
the line does not begin with a period (hence the entire stripped line if
no period occurs at all); the first-100-characters fallback applies
exactly when the line begins with a period. -/
theorem c4_title_rule_amended (cs : List Char) (hne : cs ≠ []) :
    (cs.head? ≠ some '.' →
        extractTitle cs = pyStrip (cs.takeWhile (fun c => c != '.'))) ∧
    ((∀ c ∈ cs, c ≠ '.') → extractTitle cs = pyStrip cs) ∧
    (cs.head? = some '.' → extractTitle cs = cs.take 100) := by
  cases cs with
  | nil => exact absurd rfl hne
  | cons a l =>
    by_cases ha : a = '.'
    · subst ha
      have hemp : ((('.') :: l).takeWhile (fun c => c != '.')) = [] := by
        rw [List.takeWhile_cons]
        simp
      refine ⟨fun h => ?_, fun h => ?_, fun _ => ?_⟩
      · simp at h
      · have := h '.' (by simp)
        simp at this
      · rw [extractTitle_eq, hemp]
        simp
    · have hm : ((a :: l).takeWhile (fun c => c != '.')) =
          a :: l.takeWhile (fun c => c != '.') := by
        rw [List.takeWhile_cons]
        simp [ha]
      refine ⟨fun _ => ?_, fun h => ?_, fun h => absurd (by simpa using h) ha⟩
      · rw [extractTitle_eq, hm]
        simp
      · have hall : ((a :: l).takeWhile (fun c => c != '.')) = a :: l :=
          takeWhile_of_all _ _ (fun c hc => by simpa using h c hc)
        rw [extractTitle_eq, hall]
        simp

/-- C4 witness: the amended rule evaluated on a concrete period-free
line. -/
theorem c4_title_rule_amended_witness :
    c4ShortLine ≠ [] ∧ (∀ c ∈ c4ShortLine, c ≠ '.') ∧
    extractTitle c4ShortLine = pyStrip c4ShortLine :=
  ⟨by decide, by decide,
    (c4_title_rule_amended c4ShortLine (by decide)).2.1 (by decide)⟩

/-! ## C7 -/

theorem selectGo_nil (maxT : ℕ) (rem : ℚ) (sel : List ScoredItem) :
    selectGo maxT [] rem sel = sel := rfl

theorem selectGo_cons (maxT : ℕ) (item : ScoredItem) (rest : List ScoredItem)
    (rem : ℚ) (sel : List ScoredItem) :
    selectGo maxT (item :: rest) rem sel =
      if chargedHours item.task ≤ rem then
        (if maxT ≤ (sel ++ [item]).length then sel ++ [item]
         else selectGo maxT rest (rem - chargedHours item.task) (sel ++ [item]))
      else selectGo maxT rest rem sel := rfl

theorem selectGo_eq_append (maxT : ℕ) (items : List ScoredItem) :
    ∀ (rem : ℚ) (sel : List ScoredItem),
      ∃ tail, selectGo maxT items rem sel = sel ++ tail := by
  induction items with
  | nil => intro rem sel; exact ⟨[], by simp [selectGo_nil]⟩
  | cons item rest ih =>
    intro rem sel
    by_cases hfit : chargedHours item.task ≤ rem
    · by_cases hcap : maxT ≤ (sel ++ [item]).length
      · exact ⟨[item], by rw [selectGo_cons, if_pos hfit, if_pos hcap]⟩
      · obtain ⟨tail, htail⟩ :=
          ih (rem - chargedHours item.task) (sel ++ [item])
        refine ⟨[item] ++ tail, ?_⟩
        rw [selectGo_cons, if_pos hfit, if_neg hcap, htail, List.append_assoc]
    · obtain ⟨tail, htail⟩ := ih rem sel
      exact ⟨tail, by rw [selectGo_cons, if_neg hfit, htail]⟩

/-- C7 counterexample: a task whose estimated-hours field is present with
value 0.0 is charged the default 2.0 (the Python `or` treats 0.0 as
absent) and is skipped by a remaining budget of 1.0, although the claim
says it is charged 0.0 ≤ 1.0 and accepted. -/
theorem c7_zero_hours_counterexample :
    chargedHours c7ZeroItem.task = 2 ∧
    select_optimal_set [c7ZeroItem] 1 5 = [] ∧
    (0 : ℚ) ≤ 1 ∧ (2 : ℚ) ≠ 0 := by
  refine ⟨by decide, by decide, by norm_num, by norm_num⟩

/-- C7 amended: the hours charged equal the estimated-hours field whenever
it is present and nonzero, and the default 2.0 when it is absent or holds
0.0; a candidate is accepted exactly when its charged hours do not exceed
the remaining budget, otherwise it is skipped and iteration continues. -/
theorem c7_charging_rule_amended (maxT : ℕ) (item : ScoredItem)
    (rest : List ScoredItem) (rem : ℚ) (sel : List ScoredItem) :
    chargedHours item.task =
      (match item.task.metadata.estimated_hours with
        | none => 2
        | some v => if v = 0 then 2 else v) ∧
    (chargedHours item.task ≤ rem →
      item ∈ selectGo maxT (item :: rest) rem sel) ∧
    (¬ chargedHours item.task ≤ rem →
      selectGo maxT (item :: rest) rem sel = selectGo maxT rest rem sel) := by
  refine ⟨rfl, fun hfit => ?_, fun hfit => ?_⟩
  · by_cases hcap : maxT ≤ (sel ++ [item]).length
    · rw [selectGo_cons, if_pos hfit, if_pos hcap]
      simp
    · obtain ⟨tail, htail⟩ :=
        selectGo_eq_append maxT rest (rem - chargedHours item.task) (sel ++ [item])
      rw [selectGo_cons, if_pos hfit, if_neg hcap, htail]
      simp
  · rw [selectGo_cons, if_neg hfit]

/-- C7 witness: the amended rule on concrete entries, one accepted
(1.0 ≤ 8.0), one skipped (charged 2.0 > 1.0 remaining). -/
theorem c7_charging_rule_amended_witness :
    (chargedHours c7FitItem.task ≤ 8 ∧
      c7FitItem ∈ selectGo 5 [c7FitItem] 8 []) ∧
    (¬ chargedHours c7ZeroItem.task ≤ 1 ∧
      selectGo 5 [c7ZeroItem] 1 [] = selectGo 5 [] 1 []) :=
  ⟨⟨by decide, (c7_charging_rule_amended 5 c7FitItem [] 8 []).2.1 (by decide)⟩,
   ⟨by decide, (c7_charging_rule_amended 5 c7ZeroItem [] 1 []).2.2 (by decide)⟩⟩

/-! ## C8 -/

theorem isStartOf_self_append (n rest : List Char) :
    isStartOf n (n ++ rest) = true := by
  induction n with
  | nil => rfl
  | cons a as ih => simp [isStartOf, ih]

theorem pyIn_of_isStartOf {n hay : List Char} (h : isStartOf n hay = true) :
    pyIn n hay = true := by
  cases hay with
  | nil =>
    cases n with
    | nil => rfl
    | cons a as => simp [isStartOf] at h
  | cons b bs => simp [pyIn, h]

/-- C8 counterexample: the mention produced for the trigger word "задача"
followed by the capitalized name "Котова" is labelled "постановщик"
(originator), not "автор" (author): the label is picked by scanning the
whole lowercased match for trigger substrings in a fixed order, and the
name contains the substring "от". -/
theorem c8_author_label_counterexample :
    (mkMention "задача".data "Котова".data).mention_context = some "постановщик" ∧
    some "постановщик" ≠ some "автор" := by
  exact ⟨by decide, by decide⟩

/-- C8 amended: the context label is the first hit when the lowercased
full match (trigger word plus captured name) is scanned for the
substrings "согласовать", "связаться", "передать", "от", "задача" in that
order; a "задача"-triggered mention is labelled author exactly when none
of the four earlier substrings occurs in the lowercased match — in
particular a name containing "от" yields originator instead. -/
theorem c8_zadacha_label_amended (name : List Char)
    (h1 : pyIn "согласовать".data (pyLower (mentionMatchText "задача".data name)) = false)
    (h2 : pyIn "связаться".data (pyLower (mentionMatchText "задача".data name)) = false)
    (h3 : pyIn "передать".data (pyLower (mentionMatchText "задача".data name)) = false)
    (h4 : pyIn "от".data (pyLower (mentionMatchText "задача".data name)) = false) :
    mentionContextOf (mentionMatchText "задача".data name) = some "автор" := by
  have hm : pyLower (mentionMatchText "задача".data name) =
      "задача".data ++ (" ".data ++ pyLower name) := by
    unfold mentionMatchText pyLower
    rw [List.map_append, List.map_append]
    rw [show List.map pyLowerChar "задача".data = "задача".data from by decide]
    rw [show List.map pyLowerChar " ".data = " ".data from by decide]
    rw [List.append_assoc]
  have hz : pyIn "задача".data (pyLower (mentionMatchText "задача".data name)) = true := by
    rw [hm]
    exact pyIn_of_isStartOf (isStartOf_self_append _ _)
  simp [mentionContextOf, h1, h2, h3, h4, hz]

/-- C8 witness: the amended rule on the concrete name "Саиды", which
contains none of the earlier trigger substrings. -/
theorem c8_zadacha_label_amended_witness :
    pyIn "от".data (pyLower (mentionMatchText "задача".data "Саиды".data)) = false ∧
    mentionContextOf (mentionMatchText "задача".data "Саиды".data) = some "автор" :=
  ⟨by decide,
    c8_zadacha_label_amended "Саиды".data (by decide) (by decide) (by decide) (by decide)⟩

/-! ## Helper lemmas about the ranking and selection pipeline -/

theorem insDesc_perm (x : ScoredItem) (l : List ScoredItem) :
    List.Perm (insDesc x l) (x :: l) := by
  induction l with
  | nil => exact List.Perm.refl _
  | cons y ys ih =>
    unfold insDesc
    by_cases h : y.score < x.score
    · rw [if_pos h]
    · rw [if_neg h]
      exact (ih.cons y).trans (List.Perm.swap x y ys)

theorem sortByScoreDesc_perm (l : List ScoredItem) :
    List.Perm (sortByScoreDesc l) l := by
  induction l with
  | nil => exact List.Perm.refl _
  | cons x xs ih =>
    exact (insDesc_perm x (sortByScoreDesc xs)).trans (ih.cons x)

theorem mem_prioritize_iff (tasks : List Task) (now : Int) (item : ScoredItem) :
    item ∈ prioritize_tasks tasks now ↔
      ∃ t, t ∈ tasks ∧ (t.status ≠ Status.done ∧ t.status ≠ Status.cancelled) ∧
        item = mkScoredItem t tasks now := by
  unfold prioritize_tasks
  rw [(sortByScoreDesc_perm _).mem_iff]
  simp only [List.mem_map, List.mem_filter, decide_eq_true_eq]
  constructor
  · rintro ⟨t, ⟨ht, hc⟩, rfl⟩
    exact ⟨t, ht, hc, rfl⟩
  · rintro ⟨t, ht, hc, rfl⟩
    exact ⟨t, ⟨ht, hc⟩, rfl⟩

theorem availableFilterPred_iff (t : Task) (all_tasks : List Task) :
    availableFilterPred t all_tasks = true ↔
      (t.status ≠ Status.done ∧ t.status ≠ Status.cancelled) ∧
      ∀ dep ∈ t.dependencies, ∀ u ∈ all_tasks,
        u.id = dep → u.status = Status.done := by
  unfold availableFilterPred blockingDeps
  by_cases hs : t.status = Status.done ∨ t.status = Status.cancelled
  · rw [if_pos hs]
    simp only [Bool.false_eq_true, false_iff]
    rintro ⟨⟨h1, h2⟩, -⟩
    tauto
  · rw [if_neg hs]
    push_neg at hs
    by_cases hd : t.dependencies = []
    · have hde : t.dependencies.isEmpty = true := by simp [hd]
      rw [if_pos hde]
      simp [hd, hs]
    · have hde : ¬(t.dependencies.isEmpty = true) := by
        rw [isEmpty_true_iff]; exact hd
      rw [if_neg hde, isEmpty_true_iff, filter_eq_nil_iff_all_false]
      constructor
      · intro h
        refine ⟨hs, fun dep hdep u hu hid => ?_⟩
        have hx := h dep hdep
        simp only [List.any_eq_false, Bool.and_eq_true, beq_iff_eq,
          decide_eq_true_eq, not_and] at hx
        have := hx u hu hid
        tauto
      · rintro ⟨-, h⟩ dep hdep
        simp only [List.any_eq_false, Bool.and_eq_true, beq_iff_eq,
          decide_eq_true_eq, not_and]
        intro u hu hid hne
        exact hne (h dep hdep u hu hid)

theorem selectGo_mem_subset (maxT : ℕ) (items : List ScoredItem) :
    ∀ (rem : ℚ) (sel : List ScoredItem) (x : ScoredItem),
      x ∈ selectGo maxT items rem sel → x ∈ sel ∨ x ∈ items := by
  induction items with
  | nil =>
    intro rem sel x hx
    rw [selectGo_nil] at hx
    exact Or.inl hx
  | cons item rest ih =>
    intro rem sel x hx
    rw [selectGo_cons] at hx
    by_cases hfit : chargedHours item.task ≤ rem
    · rw [if_pos hfit] at hx
      by_cases hcap : maxT ≤ (sel ++ [item]).length
      · rw [if_pos hcap] at hx
        rcases List.mem_append.mp hx with h | h
        · exact Or.inl h
        · have hxi : x = item := by simpa using h
          exact Or.inr (hxi ▸ List.mem_cons_self _ _)
      · rw [if_neg hcap] at hx
        rcases ih _ _ x hx with h | h
        · rcases List.mem_append.mp h with h2 | h2
          · exact Or.inl h2
          · have hxi : x = item := by simpa using h2
            exact Or.inr (hxi ▸ List.mem_cons_self _ _)
        · exact Or.inr (List.mem_cons_of_mem _ h)
    · rw [if_neg hfit] at hx
      rcases ih _ _ x hx with h | h
      · exact Or.inl h
      · exact Or.inr (List.mem_cons_of_mem _ h)

theorem totalChargedHours_append (a b : List ScoredItem) :
    totalChargedHours (a ++ b) = totalChargedHours a + totalChargedHours b := by
  simp [totalChargedHours]

theorem selectGo_hours_le (maxT : ℕ) (items : List ScoredItem) :
    ∀ (rem : ℚ) (sel : List ScoredItem), 0 ≤ rem →
      totalChargedHours (selectGo maxT items rem sel) ≤
        totalChargedHours sel + rem := by
  induction items with
  | nil =>
    intro rem sel h
    rw [selectGo_nil]
    linarith
  | cons item rest ih =>
    intro rem sel h
    rw [selectGo_cons]
    by_cases hfit : chargedHours item.task ≤ rem
    · rw [if_pos hfit]
      have hsingle : totalChargedHours [item] = chargedHours item.task := by
        simp [totalChargedHours]
      by_cases hcap : maxT ≤ (sel ++ [item]).length
      · rw [if_pos hcap, totalChargedHours_append, hsingle]
        linarith
      · rw [if_neg hcap]
        have h0 : (0 : ℚ) ≤ rem - chargedHours item.task := by linarith
        have hrec := ih (rem - chargedHours item.task) (sel ++ [item]) h0
        rw [totalChargedHours_append, hsingle] at hrec
        linarith
    · rw [if_neg hfit]
      exact ih rem sel h

theorem selectGo_length_le (maxT : ℕ) (items : List ScoredItem) :
    ∀ (rem : ℚ) (sel : List ScoredItem),
      (selectGo maxT items rem sel).length ≤ max maxT (sel.length + 1) := by
  induction items with
  | nil =>
    intro rem sel
    rw [selectGo_nil]
    omega
  | cons item rest ih =>
    intro rem sel
    rw [selectGo_cons]
    by_cases hfit : chargedHours item.task ≤ rem
    · rw [if_pos hfit]
      by_cases hcap : maxT ≤ (sel ++ [item]).length
      · rw [if_pos hcap]
        simp only [List.length_append, List.length_singleton]
        omega
      · rw [if_neg hcap]
        have hrec := ih (rem - chargedHours item.task) (sel ++ [item])
        simp only [List.length_append, List.length_singleton] at hrec hcap
        omega
    · rw [if_neg hfit]
      exact ih rem sel

/-! ## C2 -/

/-- C2 counterexample: with the configured maximum set to 0, an available
one-hour task inside an 8-hour budget is still selected, because the cap
is only checked after a task has been appended; the output size is 1 > 0,
violating the claim at its stated edge case. -/
theorem c2_zero_cap_counterexample :
    (recommend_for_today [c2Solo] 8 0 0).total_tasks = 1 ∧
    ¬((recommend_for_today [c2Solo] 8 0 0).total_tasks ≤ 0) := by
  constructor
  · decide
  · decide

/-- C2 amended: for every task collection, non-negative hours budget and
configured maximum, the sum of the charged hours over the selected tasks never
exceeds the budget, and the number of selected tasks never exceeds the
configured maximum when that maximum is at least 1; when the maximum is 0
at most one task can be returned (count ≤ max(maximum, 1)). -/
theorem c2_budget_and_cap_amended (tasks : List Task) (hours : ℚ)
    (maxT : ℕ) (now : Int) (h : 0 ≤ hours) :
    (recommend_for_today tasks hours maxT now).total_hours ≤ hours ∧
    (recommend_for_today tasks hours maxT now).total_tasks ≤ max maxT 1 := by
  constructor
  · show totalChargedHours (selectGo maxT
      (filter_available_tasks (prioritize_tasks tasks now) tasks) hours []) ≤ hours
    have hrec := selectGo_hours_le maxT
      (filter_available_tasks (prioritize_tasks tasks now) tasks) hours [] h
    have h0 : totalChargedHours ([] : List ScoredItem) = 0 := rfl
    rw [h0] at hrec
    linarith
  · show (selectGo maxT
      (filter_available_tasks (prioritize_tasks tasks now) tasks) hours []).length
        ≤ max maxT 1
    have hrec := selectGo_length_le maxT
      (filter_available_tasks (prioritize_tasks tasks now) tasks) hours []
    simpa using hrec

/-- C2 witness: the amended bound evaluated at a concrete collection,
budget 8, maximum 5. -/
theorem c2_budget_and_cap_amended_witness :
    (0 : ℚ) ≤ 8 ∧
    ((recommend_for_today [c2Solo] 8 5 0).total_hours ≤ 8 ∧
      (recommend_for_today [c2Solo] 8 5 0).total_tasks ≤ max 5 1) :=
  ⟨by norm_num, c2_budget_and_cap_amended [c2Solo] 8 5 0 (by norm_num)⟩

/-! ## C3 -/

/-- C3: a task is in the candidate pool of the Selector exactly when its status
is neither Done nor Cancelled and every dependency id that resolves to a
task of the full collection resolves only to Done tasks; dependency ids
with no match in the collection never block, and the characterization
holds for every collection, so re-running the filter after the blocking
dependency becomes Done makes the task eligible. -/
theorem c3_candidate_pool_characterization (tasks : List Task) (now : Int)
    (t : Task) :
    (∃ item ∈ filter_available_tasks (prioritize_tasks tasks now) tasks,
        item.task = t) ↔
      t ∈ tasks ∧ (t.status ≠ Status.done ∧ t.status ≠ Status.cancelled) ∧
        ∀ dep ∈ t.dependencies, ∀ u ∈ tasks,
          u.id = dep → u.status = Status.done := by
  constructor
  · rintro ⟨item, hmem, rfl⟩
    rw [filter_available_tasks, List.mem_filter] at hmem
    obtain ⟨hp, hpred⟩ := hmem
    rw [mem_prioritize_iff] at hp
    obtain ⟨s, hs, hconds, rfl⟩ := hp
    have hts : (mkScoredItem s tasks now).task = s := rfl
    rw [hts] at hpred ⊢
    rw [availableFilterPred_iff] at hpred
    exact ⟨hs, hpred⟩
  · rintro ⟨hmem, hstat, hdeps⟩
    refine ⟨mkScoredItem t tasks now, ?_, rfl⟩
    rw [filter_available_tasks, List.mem_filter]
    constructor
    · rw [mem_prioritize_iff]
      exact ⟨t, hmem, hstat, rfl⟩
    · rw [show (mkScoredItem t tasks now).task = t from rfl,
        availableFilterPred_iff]
      exact ⟨hstat, hdeps⟩

/-- C3 witness: with the dependency task not yet Done the waiting task is
not in the pool; after the status of the dependency becomes Done it is. -/
theorem c3_candidate_pool_witness :
    (¬ ∃ item ∈ filter_available_tasks
        (prioritize_tasks [c3DepNew, c3Waiting] 0) [c3DepNew, c3Waiting],
        item.task = c3Waiting) ∧
    (∃ item ∈ filter_available_tasks
        (prioritize_tasks [c3DepDone, c3Waiting] 0) [c3DepDone, c3Waiting],
        item.task = c3Waiting) := by
  constructor
  · intro h
    have hc := (c3_candidate_pool_characterization [c3DepNew, c3Waiting] 0
      c3Waiting).mp h
    have hdone := hc.2.2 "a" (by decide) c3DepNew (by decide) (by decide)
    exact absurd hdone (by decide)
  · exact (c3_candidate_pool_characterization [c3DepDone, c3Waiting] 0
      c3Waiting).mpr ⟨by decide, ⟨by decide, by decide⟩, by decide⟩

/-! ## C9 -/

/-- C9 counterexample: the composite score reads the ambient wall clock
through the deadline factor: the same task and the same collection score
40.0 when the deadline lies 20 days in the past and 20.0 when it lies 20
days in the future. -/
theorem c9_wall_clock_dependence :
    calculate_score c9Task [c9Task] 28800 ≠ calculate_score c9Task [c9Task] (-28800) := by
  have hb : scoreBasePriority c9Task = 0.5 := rfl
  have hc : scoreAiConfidence c9Task = 0 := rfl
  have hu : scoreUrgencyKeywords c9Task = 0 := by
    have hf : URGENCY_KEYWORDS.filter (fun k => pyIn k (textToCheck c9Task)) =
        ([] : List (List Char)) := by decide
    simp [scoreUrgencyKeywords, hf]
  have hblk : scoreBlocking c9Task [c9Task] = 0 := by decide
  have hd1 : scoreDeadline c9Task 28800 = 1 := by decide
  have hd2 : scoreDeadline c9Task (-28800) = 0.2 := by
    have hfd : timedeltaDays 28800 = 20 := by decide
    simp [scoreDeadline, c9Task, hfd]
  have h1 : calculate_score c9Task [c9Task] 28800 = 40 := by
    simp only [calculate_score, hb, hc, hu, hblk, hd1]
    norm_num [round1, roundHalfEven]
  have h2 : calculate_score c9Task [c9Task] (-28800) = 20 := by
    simp only [calculate_score, hb, hc, hu, hblk, hd2]
    norm_num [round1, roundHalfEven]
  rw [h1, h2]
  norm_num

/-- C9 amended: the composite score is a deterministic pure function of
the task, the full collection and the current wall-clock time; it reads
nothing else of the task than its priority, deadline, texts, id,
dependency list and AI confidence, so two tasks agreeing on those fields
receive identical scores against the same collection and clock. -/
theorem c9_score_congruence (t₁ t₂ : Task) (tasks : List Task) (now : Int)
    (hid : t₁.id = t₂.id) (hti : t₁.title = t₂.title)
    (hde : t₁.description = t₂.description)
    (hor : t₁.original_text = t₂.original_text)
    (hpr : t₁.priority = t₂.priority)
    (hdl : t₁.deadline = t₂.deadline)
    (hdep : t₁.dependencies = t₂.dependencies)
    (hai : t₁.ai_classification_confidence = t₂.ai_classification_confidence) :
    calculate_score t₁ tasks now = calculate_score t₂ tasks now := by
  unfold calculate_score scoreBasePriority scoreDeadline scoreUrgencyKeywords
    textToCheck scoreBlocking scoreAiConfidence
  rw [hid, hti, hde, hor, hpr, hdl, hdep, hai]

/-- C9 witness: the congruence applied to a task and its variant differing
only in status. -/
theorem c9_score_congruence_witness :
    calculate_score c9Task [c9Task] 0 = calculate_score c9TaskVariant [c9Task] 0 :=
  c9_score_congruence c9Task c9TaskVariant [c9Task] 0
    rfl rfl rfl rfl rfl rfl rfl rfl

/-! ## C10 -/

/-- C10: a non-Done task whose dependency list contains its own id never
appears in the recommendation output: the availability filter finds the
task itself as an unfinished resolution of that dependency id, so the task
is dropped before selection. -/
theorem c10_self_dependent_never_recommended (tasks : List Task) (hours : ℚ)
    (maxT : ℕ) (now : Int) (t : Task)
    (hdep : t.id ∈ t.dependencies) (hstat : t.status ≠ Status.done) :
    ∀ item ∈ (recommend_for_today tasks hours maxT now).recommended,
      item.task ≠ t := by
  intro item hitem heq
  have hsel : item ∈ selectGo maxT
      (filter_available_tasks (prioritize_tasks tasks now) tasks) hours [] := hitem
  rcases selectGo_mem_subset maxT _ hours [] item hsel with h | h
  · simp at h
  · rw [filter_available_tasks, List.mem_filter] at h
    obtain ⟨hp, hpred⟩ := h
    rw [mem_prioritize_iff] at hp
    obtain ⟨s, hs, -, rfl⟩ := hp
    have hts : (mkScoredItem s tasks now).task = s := rfl
    rw [hts] at hpred heq
    rw [← heq] at hdep hstat
    rw [availableFilterPred_iff] at hpred
    exact hstat (hpred.2 s.id hdep s hs rfl)

/-- C10 witness: the theorem applied to a concrete self-dependent task. -/
theorem c10_self_dependent_witness :
    c10Task.id ∈ c10Task.dependencies ∧ c10Task.status ≠ Status.done ∧
    ∀ item ∈ (recommend_for_today [c10Task] 8 5 0).recommended,
      item.task ≠ c10Task :=
  ⟨by decide, by decide,
    c10_self_dependent_never_recommended [c10Task] 8 5 0 c10Task
      (by decide) (by decide)⟩

end TaskCenter
